import Mathlib

/-!
Verification of the vessel-dash ETL pipeline
(`src/etl_ship_data_with_schema.py`) against its specification.

The Python source is shallowly embedded: numeric sensor values are
rationals (`ℚ`), Python dictionaries are association lists, the mutable
PostgreSQL state is an explicit `DB` record threaded through the
dimension-resolver and bulk-loader functions, and Python exceptions are
`Except` values.
-/

set_option maxRecDepth 8000

namespace VesselDash

/-- A value held in the parsed data dictionary passed to
`validate_sensor_data`.  `num q` is a value convertible to a float with
exact value `q`; `null` covers Python `None` and float NaN (skipped by the
validator); `malformed` is a value on which `float(value)` raises
`ValueError`/`TypeError`. -/
inductive RawValue where
  | num (q : ℚ)
  | null
  | malformed
deriving DecidableEq, Repr

/-- One entry of the `validation_rules` table of `validate_sensor_data`:
source key, target field name, inclusive minimum, inclusive maximum, and
decimal precision. -/
structure Rule where
  source : String
  target : String
  lo : ℚ
  hi : ℚ
  prec : ℕ
deriving DecidableEq, Repr

/-- The fixed `validation_rules` table from `validate_sensor_data`,
entry for entry. -/
def validationRules : List Rule :=
  [⟨"LAT", "latitude", -90, 90, 6⟩,
   ⟨"LON", "longitude", -180, 180, 6⟩,
   ⟨"WINDIR", "wind_direction", 0, 360, 2⟩,
   ⟨"WINSPE", "wind_speed", 0, 200, 2⟩,
   ⟨"AIR_TEMP_AUT", "air_temperature", -50, 60, 2⟩,
   ⟨"CTNK0_LIQ_VOL", "tank0_liquid_volume", 0, 999999.99, 2⟩,
   ⟨"CTNK0_MAX_VOL", "tank0_max_volume", 0, 999999.99, 2⟩,
   ⟨"CTNK0_MAX_PERC", "tank0_percentage", 0, 100, 2⟩,
   ⟨"CTNK1_LIQ_VOL", "tank1_liquid_volume", 0, 999999.99, 2⟩,
   ⟨"CTNK1_MAX_VOL", "tank1_max_volume", 0, 999999.99, 2⟩,
   ⟨"CTNK1_PERC", "tank1_percentage", 0, 100, 2⟩,
   ⟨"CTNK2_LIQ_VOL", "tank2_liquid_volume", 0, 999999.99, 2⟩,
   ⟨"CTNK2_MAX_VOL", "tank2_max_volume", 0, 999999.99, 2⟩,
   ⟨"CTNK2_PERC", "tank2_percentage", 0, 100, 2⟩,
   ⟨"CTNK3_LIQ_VOL", "tank3_liquid_volume", 0, 999999.99, 2⟩,
   ⟨"CTNK3_MAX_VOL", "tank3_max_volume", 0, 999999.99, 2⟩,
   ⟨"CTNK3_PERC", "tank3_percentage", 0, 100, 2⟩,
   ⟨"CTNK4_LIQ_VOL", "tank4_liquid_volume", 0, 999999.99, 2⟩,
   ⟨"CTNK4_MAX_VOL", "tank4_max_volume", 0, 999999.99, 2⟩,
   ⟨"CTNK4_PERC", "tank4_percentage", 0, 100, 2⟩,
   ⟨"CTNK0_VAP_PRES", "tank0_vapor_pressure", 0, 9999.99, 2⟩,
   ⟨"CTNK0_VAP_TEMP", "tank0_vapor_temperature", -200, 200, 2⟩,
   ⟨"CTNK1_VAP_PRES", "tank1_vapor_pressure", 0, 9999.99, 2⟩,
   ⟨"CTNK1_VAP_TEMP", "tank1_vapor_temperature", -200, 200, 2⟩,
   ⟨"CTNK2_VAP_PRES", "tank2_vapor_pressure", 0, 9999.99, 2⟩,
   ⟨"CTNK2_VAP_TEMP", "tank2_vapor_temperature", -200, 200, 2⟩,
   ⟨"CTNK3_VAP_PRES", "tank3_vapor_pressure", 0, 9999.99, 2⟩,
   ⟨"CTNK3_VAP_TEMP", "tank3_vapor_temperature", -200, 200, 2⟩,
   ⟨"CTNK4_VAP_PRES", "tank4_vapor_pressure", 0, 9999.99, 2⟩,
   ⟨"CTNK4_VAP_TEMP", "tank4_vapor_temperature", -200, 200, 2⟩]

/-- Round-half-to-even on rationals, the semantics of Python's built-in
`round` applied to an exact value. -/
def roundHalfEven (q : ℚ) : ℤ :=
  if q - (⌊q⌋ : ℚ) < 1/2 then ⌊q⌋
  else if 1/2 < q - (⌊q⌋ : ℚ) then ⌊q⌋ + 1
  else if ⌊q⌋ % 2 = 0 then ⌊q⌋ else ⌊q⌋ + 1

/-- Python's `round(q, p)` on an exact rational value. -/
def roundTo (p : ℕ) (q : ℚ) : ℚ :=
  (roundHalfEven (q * (10 : ℚ) ^ p) : ℚ) / (10 : ℚ) ^ p

/-- Python's guarded dictionary access in `validate_sensor_data`:
`data_dict[source_key]` behind the `if source_key in data_dict` check,
as a lookup in the association-list embedding of the dictionary. -/
def dictGet (k : String) : List (String × RawValue) → Option RawValue
  | [] => none
  | (k', v) :: rest => if k' = k then some v else dictGet k rest

/-- One iteration of the `for source_key, (...) in validation_rules.items()`
loop of `validate_sensor_data`: the accumulator holds the
`validated_data` mapping built so far and the `validation_errors`
counter. -/
def validateStep (data : List (String × RawValue))
    (acc : List (String × ℚ) × ℕ) (r : Rule) : List (String × ℚ) × ℕ :=
  match dictGet r.source data with
  | none => acc
  | some .null => acc
  | some .malformed => (acc.1, acc.2 + 1)
  | some (.num q) =>
      if r.lo ≤ q ∧ q ≤ r.hi then
        (acc.1 ++ [(r.source, roundTo r.prec q)], acc.2)
      else
        (acc.1, acc.2 + 1)

/-- `validate_sensor_data`: fold the rule table over the input mapping,
returning the validated mapping together with the error counter.  Note
that, as in the source, accepted values are stored under the *source*
key (`validated_data[source_key] = rounded_value`). -/
def validate_sensor_data (data : List (String × RawValue)) :
    List (String × ℚ) × ℕ :=
  validationRules.foldl (validateStep data) ([], 0)

/-! ### Basic facts about the rounding function -/

theorem sub_half_le_roundHalfEven (q : ℚ) :
    q - 1/2 ≤ (roundHalfEven q : ℚ) := by
  unfold roundHalfEven
  have h1 : (⌊q⌋ : ℚ) ≤ q := Int.floor_le q
  have h2 : q < (⌊q⌋ : ℚ) + 1 := Int.lt_floor_add_one q
  split
  · linarith
  · split
    · push_cast; linarith
    · split
      · linarith
      · push_cast; linarith

theorem roundHalfEven_le_add_half (q : ℚ) :
    (roundHalfEven q : ℚ) ≤ q + 1/2 := by
  unfold roundHalfEven
  have h1 : (⌊q⌋ : ℚ) ≤ q := Int.floor_le q
  split
  · linarith
  · rename_i hlt
    push_neg at hlt
    split
    · rename_i hgt
      push_cast; linarith
    · rename_i hgt
      push_neg at hgt
      split
      · linarith
      · push_cast; linarith

/-- If an integer bound `m` (as a rational) is at most `q`, then it is at
most the rounding of `q`: rounding cannot cross an integer bound. -/
theorem int_le_roundHalfEven {m : ℤ} {q : ℚ} (h : (m : ℚ) ≤ q) :
    m ≤ roundHalfEven q := by
  have h1 := sub_half_le_roundHalfEven q
  have h2 : (m : ℚ) - 1 < (roundHalfEven q : ℚ) := by linarith
  have h3 : (m : ℤ) - 1 < roundHalfEven q := by exact_mod_cast (by push_cast; linarith : ((m - 1 : ℤ) : ℚ) < (roundHalfEven q : ℚ))
  omega

theorem roundHalfEven_le_int {M : ℤ} {q : ℚ} (h : q ≤ (M : ℚ)) :
    roundHalfEven q ≤ M := by
  have h1 := roundHalfEven_le_add_half q
  have h3 : roundHalfEven q < M + 1 := by
    exact_mod_cast (by push_cast; linarith : ((roundHalfEven q : ℤ) : ℚ) < ((M + 1 : ℤ) : ℚ))
  omega

/-- Bounds whose scaled forms are integers are preserved by `roundTo`. -/
theorem roundTo_mem_Icc (p : ℕ) (lo hi q : ℚ)
    (hlo : (lo * (10 : ℚ) ^ p).den = 1) (hhi : (hi * (10 : ℚ) ^ p).den = 1)
    (h1 : lo ≤ q) (h2 : q ≤ hi) :
    lo ≤ roundTo p q ∧ roundTo p q ≤ hi := by
  have hpow : (0 : ℚ) < (10 : ℚ) ^ p := by positivity
  set m : ℤ := (lo * (10 : ℚ) ^ p).num with hm
  set M : ℤ := (hi * (10 : ℚ) ^ p).num with hM
  have hmq : (m : ℚ) = lo * (10 : ℚ) ^ p := by
    rw [hm]
    exact_mod_cast Rat.den_eq_one_iff _ |>.mp hlo
  have hMq : (M : ℚ) = hi * (10 : ℚ) ^ p := by
    rw [hM]
    exact_mod_cast Rat.den_eq_one_iff _ |>.mp hhi
  have hlo' : (m : ℚ) ≤ q * (10 : ℚ) ^ p := by
    rw [hmq]
    exact mul_le_mul_of_nonneg_right h1 (le_of_lt hpow)
  have hhi' : q * (10 : ℚ) ^ p ≤ (M : ℚ) := by
    rw [hMq]
    exact mul_le_mul_of_nonneg_right h2 (le_of_lt hpow)
  have hleft : m ≤ roundHalfEven (q * (10 : ℚ) ^ p) := int_le_roundHalfEven hlo'
  have hright : roundHalfEven (q * (10 : ℚ) ^ p) ≤ M := roundHalfEven_le_int hhi'
  constructor
  · rw [roundTo, le_div_iff₀ hpow, ← hmq]
    exact_mod_cast hleft
  · rw [roundTo, div_le_iff₀ hpow, ← hMq]
    exact_mod_cast hright

/-! ### Structure of the validated mapping -/

/-- Every pair in the mapping built by folding `validateStep` either was
already in the accumulator or is an accepted, rounded value of some rule
in the folded rule list. -/
theorem validate_foldl_mem (data : List (String × RawValue)) :
    ∀ (rs : List Rule) (acc : List (String × ℚ) × ℕ) (k : String) (v : ℚ),
      (k, v) ∈ (rs.foldl (validateStep data) acc).1 →
      (k, v) ∈ acc.1 ∨ ∃ r ∈ rs, r.source = k ∧ ∃ q,
        dictGet r.source data = some (.num q) ∧ r.lo ≤ q ∧ q ≤ r.hi ∧
        v = roundTo r.prec q := by
  intro rs
  induction rs with
  | nil => intro acc k v h; exact Or.inl h
  | cons r rest ih =>
      intro acc k v h
      simp only [List.foldl_cons] at h
      rcases ih _ k v h with hacc | ⟨r', hr', hsrc, q, hq, hlo, hhi, hv⟩
      · unfold validateStep at hacc
        split at hacc
        · exact Or.inl hacc
        · exact Or.inl hacc
        · exact Or.inl hacc
        · rename_i q hlook
          split at hacc
          · rename_i hrange
            rcases List.mem_append.mp hacc with hl | hr
            · exact Or.inl hl
            · right
              have hkv : k = r.source ∧ v = roundTo r.prec q := by
                simpa using hr
              exact ⟨r, List.mem_cons_self r rest, hkv.1.symm,
                q, hlook, hrange.1, hrange.2, hkv.2⟩
          · exact Or.inl hacc
      · exact Or.inr ⟨r', List.mem_cons_of_mem r hr', hsrc, q, hq, hlo, hhi, hv⟩

/-- The source keys of the rule table are pairwise distinct. -/
theorem validationRules_sources_nodup :
    (validationRules.map Rule.source).Nodup := by decide

/-- Every rule's bounds, scaled by `10 ^ precision`, are integers, so
rounding cannot push an in-range value past a bound. -/
theorem validationRules_bounds_representable :
    ∀ r ∈ validationRules,
      (r.lo * (10 : ℚ) ^ r.prec).den = 1 ∧ (r.hi * (10 : ℚ) ^ r.prec).den = 1 := by
  with_unfolding_all decide

/-- C1: for every raw mapping given to `validate_sensor_data`, every value
present in the returned validated mapping comes from a rule of the table,
lies within that rule's inclusive `[lo, hi]` interval, and equals the raw
input value rounded to the rule's decimal precision. -/
theorem C1_validated_in_range_and_rounded
    (data : List (String × RawValue)) (k : String) (v : ℚ)
    (hmem : (k, v) ∈ (validate_sensor_data data).1) :
    ∃ r ∈ validationRules, r.source = k ∧ ∃ q,
      dictGet r.source data = some (.num q) ∧ v = roundTo r.prec q ∧
      r.lo ≤ v ∧ v ≤ r.hi := by
  rcases validate_foldl_mem data validationRules ([], 0) k v hmem with
    h | ⟨r, hr, hsrc, q, hq, hlo, hhi, hv⟩
  · simp at h
  · refine ⟨r, hr, hsrc, q, hq, hv, ?_⟩
    obtain ⟨h1, h2⟩ := validationRules_bounds_representable r hr
    have := roundTo_mem_Icc r.prec r.lo r.hi q h1 h2 hlo hhi
    rw [hv]
    exact this

/-- Witness for C1: the raw value `LAT = 45.1234567` is accepted and
stored as `45.123457`, which lies in `[-90, 90]`. -/
theorem C1_witness :
    ∃ r ∈ validationRules, r.source = "LAT" ∧ ∃ q,
      dictGet r.source [("LAT", RawValue.num (45.1234567 : ℚ))] =
        some (.num q) ∧
      (45.123457 : ℚ) = roundTo r.prec q ∧
      r.lo ≤ (45.123457 : ℚ) ∧ (45.123457 : ℚ) ≤ r.hi :=
  C1_validated_in_range_and_rounded
    [("LAT", RawValue.num (45.1234567 : ℚ))] "LAT" (45.123457 : ℚ)
    (by norm_num +decide [validate_sensor_data, validationRules, validateStep, dictGet, roundTo, roundHalfEven])

/-- C2: a field whose numeric value falls outside its rule's declared
`[lo, hi]` interval is omitted from the validated mapping entirely: no
value whatsoever (in particular, no clamped value) is stored under its
key. -/
theorem C2_out_of_range_dropped_not_clamped
    (data : List (String × RawValue)) (r : Rule) (q v : ℚ)
    (hr : r ∈ validationRules)
    (hq : dictGet r.source data = some (.num q))
    (hout : ¬(r.lo ≤ q ∧ q ≤ r.hi)) :
    (r.source, v) ∉ (validate_sensor_data data).1 := by
  intro hmem
  rcases validate_foldl_mem data validationRules ([], 0) r.source v hmem with
    h | ⟨r', hr', hsrc, q', hq', hlo, hhi, _⟩
  · simp at h
  · have hrr : r' = r :=
      List.inj_on_of_nodup_map validationRules_sources_nodup hr' hr hsrc
    subst hrr
    rw [hq] at hq'
    have : q' = q := by
      cases hq'
      rfl
    subst this
    exact hout ⟨hlo, hhi⟩

/-- Witness for C2: `LAT = 95.2` is outside `[-90, 90]`; in particular the
clamped value `90` is not stored under `LAT`. -/
theorem C2_witness :
    ("LAT", (90 : ℚ)) ∉
      (validate_sensor_data [("LAT", RawValue.num (95.2 : ℚ))]).1 :=
  C2_out_of_range_dropped_not_clamped
    [("LAT", RawValue.num (95.2 : ℚ))] ⟨"LAT", "latitude", -90, 90, 6⟩
    (95.2 : ℚ) (90 : ℚ) (by norm_num [validationRules])
    (by norm_num [dictGet]) (by norm_num)

/-- Counterexample to C7: on input `{LAT: 45}` the validator returns a
mapping keyed by the raw source name `LAT`, which is not the canonical
target name of any rule (in particular it is not `latitude`). -/
theorem C7_counterexample :
    ("LAT", (45 : ℚ)) ∈
      (validate_sensor_data [("LAT", RawValue.num 45)]).1 ∧
    "LAT" ∉ validationRules.map Rule.target ∧ "LAT" ≠ "latitude" := by
  refine ⟨by norm_num +decide [validate_sensor_data, validationRules, validateStep, dictGet, roundTo, roundHalfEven], by decide, by decide⟩

/-- C7 (amended): every key of the validated mapping produced by
`validate_sensor_data` is the raw *source* field name of some rule of the
rule table; translation to canonical target names happens downstream, in
`process_xlsx_file`. -/
theorem C7_amended_keys_are_raw_source_names
    (data : List (String × RawValue)) (k : String) (v : ℚ)
    (hmem : (k, v) ∈ (validate_sensor_data data).1) :
    ∃ r ∈ validationRules, r.source = k := by
  rcases validate_foldl_mem data validationRules ([], 0) k v hmem with
    h | ⟨r, hr, hsrc, _⟩
  · simp at h
  · exact ⟨r, hr, hsrc⟩

/-- Witness for the amended C7 on the input `{LAT: 45}`. -/
theorem C7_amended_witness :
    ∃ r ∈ validationRules, r.source = "LAT" :=
  C7_amended_keys_are_raw_source_names
    [("LAT", RawValue.num 45)] "LAT" (45 : ℚ) (by norm_num +decide [validate_sensor_data, validationRules, validateStep, dictGet, roundTo, roundHalfEven])

/-! ### Timestamps and the proleptic Gregorian calendar

`pd.to_datetime` produces Python `datetime` values; `get_or_create_datetime_id`
calls their `weekday()` and `isocalendar()` methods.  The embedding carries a
timestamp as its components and reimplements CPython's proleptic-Gregorian
date arithmetic (`datetime._ymd2ord`, `weekday`, `_isoweek1monday`,
`isocalendar`). -/

/-- A timestamp, down to the sub-minute component (`second` stands for
everything below the minute). -/
structure Timestamp where
  year : ℕ
  month : ℕ
  day : ℕ
  hour : ℕ
  minute : ℕ
  second : ℕ
deriving DecidableEq, Repr

/-- Gregorian leap-year test, as in CPython `datetime._is_leap`. -/
def isLeap (y : ℕ) : Bool :=
  y % 4 == 0 && (y % 100 != 0 || y % 400 == 0)

/-- Days in a month, as in CPython `datetime._days_in_month`. -/
def daysInMonth (y m : ℕ) : ℕ :=
  if m = 2 then (if isLeap y then 29 else 28)
  else if m = 4 ∨ m = 6 ∨ m = 9 ∨ m = 11 then 30
  else 31

/-- Days in the years before `y`, as in CPython `datetime._days_before_year`. -/
def daysBeforeYear (y : ℕ) : ℕ :=
  365 * (y - 1) + (y - 1) / 4 - (y - 1) / 100 + (y - 1) / 400

/-- Days in year `y` before month `m`, as in CPython
`datetime._days_before_month`. -/
def daysBeforeMonth (y m : ℕ) : ℕ :=
  ((List.range (m - 1)).map (fun i => daysInMonth y (i + 1))).sum

/-- CPython `datetime._ymd2ord`: proleptic Gregorian ordinal, with
0001-01-01 having ordinal 1. -/
def toOrdinal (y m d : ℕ) : ℕ :=
  daysBeforeYear y + daysBeforeMonth y m + d

/-- CPython `datetime.date.weekday`: Monday = 0 .. Sunday = 6. -/
def weekday (y m d : ℕ) : ℕ :=
  (toOrdinal y m d + 6) % 7

/-- CPython `datetime._isoweek1monday`: the ordinal of the Monday starting
ISO week 1 of `y`. -/
def isoweek1monday (y : ℕ) : ℤ :=
  let firstday : ℤ := toOrdinal y 1 1
  let firstweekday : ℤ := (firstday + 6) % 7
  let w1monday := firstday - firstweekday
  if 3 < firstweekday then w1monday + 7 else w1monday

/-- The week component of CPython `datetime.date.isocalendar`. -/
def isoWeek (y m d : ℕ) : ℕ :=
  let today : ℤ := toOrdinal y m d
  let week := (today - isoweek1monday y).fdiv 7
  if week < 0 then ((today - isoweek1monday (y - 1)).fdiv 7 + 1).toNat
  else if 52 ≤ week ∧ isoweek1monday (y + 1) ≤ today then 1
  else (week + 1).toNat

/-! ### The star-schema database state -/

/-- A row of `d_calendar`, with the columns of the `INSERT` in
`get_or_create_datetime_id`. -/
structure CalRow where
  datetime_id : Timestamp
  date : ℕ × ℕ × ℕ
  year : ℕ
  month : ℕ
  day : ℕ
  hour : ℕ
  minute : ℕ
  quarter : ℕ
  week_of_year : ℕ
  day_of_week : ℕ
  is_weekend : Bool
deriving DecidableEq, Repr

/-- A row of `f_data`: the composite key `(ship_id, datetime_id)`, the 30
sensor columns (as the canonical-name/value pairs assembled by
`prepare_bulk_data` from the processed row), the data-source label and the
original datetime string. -/
structure FactRow where
  ship_id : String
  datetime_id : Timestamp
  sensors : List (String × Option ℚ)
  data_source : String
  original_datetime : String
deriving DecidableEq, Repr

/-- The mutable PostgreSQL state visible to the pipeline: the `d_ship`,
`d_calendar` and `f_data` tables, each as a list of rows in insertion
order. -/
structure DB where
  ships : List String
  calendar : List CalRow
  facts : List FactRow
deriving DecidableEq, Repr

/-- The empty database (fresh schema). -/
def emptyDB : DB := ⟨[], [], []⟩

/-- `get_or_create_ship_id`: look `ship_id` up in `d_ship`; on a miss
insert a new row.  Both branches return the natural identifier itself
(the `SELECT` returns the row equal to `ship_id`). -/
def get_or_create_ship_id (db : DB) (ship_id : String) : String × DB :=
  if ship_id ∈ db.ships then (ship_id, db)
  else (ship_id, { db with ships := db.ships ++ [ship_id] })

/-- The `WHERE year = .. AND month = .. AND day = .. AND hour = .. AND
minute = ..` predicate of the `d_calendar` lookup. -/
def calMatch (t : Timestamp) (r : CalRow) : Bool :=
  r.year == t.year && r.month == t.month && r.day == t.day &&
    r.hour == t.hour && r.minute == t.minute

/-- The `d_calendar` row inserted on a lookup miss, with the derived
fields exactly as computed in `get_or_create_datetime_id`. -/
def newCalRow (t : Timestamp) : CalRow where
  datetime_id := t
  date := (t.year, t.month, t.day)
  year := t.year
  month := t.month
  day := t.day
  hour := t.hour
  minute := t.minute
  quarter := (t.month - 1) / 3 + 1
  week_of_year := isoWeek t.year t.month t.day
  day_of_week := weekday t.year t.month t.day + 1
  is_weekend := decide (6 ≤ weekday t.year t.month t.day + 1)

/-- `get_or_create_datetime_id`: look up `d_calendar` by exact
year/month/day/hour/minute; on a hit return the stored `datetime_id`, on a
miss insert a new row and return the timestamp itself. -/
def get_or_create_datetime_id (db : DB) (t : Timestamp) : Timestamp × DB :=
  match db.calendar.find? (calMatch t) with
  | some r => (r.datetime_id, db)
  | none => (t, { db with calendar := db.calendar ++ [newCalRow t] })

/-- Two timestamps in the same calendar minute. -/
def sameMinute (t1 t2 : Timestamp) : Prop :=
  t1.year = t2.year ∧ t1.month = t2.month ∧ t1.day = t2.day ∧
    t1.hour = t2.hour ∧ t1.minute = t2.minute

/-- Consistency of `d_calendar` as maintained by the pipeline: each row's
stored `datetime_id` agrees with the row's own minute components.  Every
row this pipeline inserts satisfies it. -/
def CalInv (db : DB) : Prop :=
  ∀ r ∈ db.calendar,
    r.year = r.datetime_id.year ∧ r.month = r.datetime_id.month ∧
    r.day = r.datetime_id.day ∧ r.hour = r.datetime_id.hour ∧
    r.minute = r.datetime_id.minute

/-- Truncation of a timestamp to the minute, following the spec's words
("returns the timestamp truncated to the minute as the calendar key");
for comparison with what the code actually returns. -/
def truncToMinuteSpec (t : Timestamp) : Timestamp :=
  { t with second := 0 }

/-! ### Facts about the dimension resolvers -/

theorem weekday_lt_7 (y m d : ℕ) : weekday y m d < 7 :=
  Nat.mod_lt _ (by omega)

theorem calMatch_eq_of_sameMinute {t1 t2 : Timestamp}
    (h : sameMinute t1 t2) : calMatch t1 = calMatch t2 := by
  funext r
  obtain ⟨h1, h2, h3, h4, h5⟩ := h
  simp [calMatch, h1, h2, h3, h4, h5]

theorem calMatch_newCalRow_self (t : Timestamp) :
    calMatch t (newCalRow t) = true := by
  simp [calMatch, newCalRow]

theorem fields_eq_of_calMatch {t : Timestamp} {r : CalRow}
    (h : calMatch t r = true) :
    r.year = t.year ∧ r.month = t.month ∧ r.day = t.day ∧
      r.hour = t.hour ∧ r.minute = t.minute := by
  simp only [calMatch, Bool.and_eq_true, beq_iff_eq] at h
  exact ⟨h.1.1.1.1, h.1.1.1.2, h.1.1.2, h.1.2, h.2⟩

/-- The key returned by the calendar resolver is in the same calendar
minute as the query timestamp (given the `d_calendar` consistency
invariant). -/
theorem get_or_create_datetime_id_fst_sameMinute {db : DB} {t : Timestamp}
    (hinv : CalInv db) :
    sameMinute (get_or_create_datetime_id db t).1 t := by
  unfold get_or_create_datetime_id
  cases hf : db.calendar.find? (calMatch t) with
  | none => exact ⟨rfl, rfl, rfl, rfl, rfl⟩
  | some r =>
      obtain ⟨i1, i2, i3, i4, i5⟩ := hinv r (List.mem_of_find?_eq_some hf)
      obtain ⟨m1, m2, m3, m4, m5⟩ := fields_eq_of_calMatch (List.find?_some hf)
      exact ⟨by rw [← i1, m1], by rw [← i2, m2], by rw [← i3, m3],
        by rw [← i4, m4], by rw [← i5, m5]⟩

/-- The calendar resolver preserves the `d_calendar` consistency
invariant. -/
theorem CalInv_get_or_create_datetime_id {db : DB} {t : Timestamp}
    (hinv : CalInv db) :
    CalInv (get_or_create_datetime_id db t).2 := by
  unfold get_or_create_datetime_id
  cases hf : db.calendar.find? (calMatch t) with
  | some r => exact hinv
  | none =>
      intro r hr
      rcases List.mem_append.mp hr with hr | hr
      · exact hinv r hr
      · simp only [List.mem_singleton] at hr
        subst hr
        exact ⟨rfl, rfl, rfl, rfl, rfl⟩

/-- Counterexample to C4: on a fresh database and the timestamp
2024-01-01 00:00:30, the calendar resolver returns the timestamp itself,
not the timestamp truncated to the minute. -/
theorem C4_counterexample :
    (get_or_create_datetime_id emptyDB ⟨2024, 1, 1, 0, 0, 30⟩).1 ≠
      truncToMinuteSpec ⟨2024, 1, 1, 0, 0, 30⟩ := by
  decide

/-- C4 (amended): on a lookup miss the calendar resolver inserts exactly
one new `d_calendar` row, whose derived fields satisfy
quarter = (month−1)/3+1, ISO week number, day-of-week Monday=1..Sunday=7,
and weekend flag exactly on day-of-week 6 or 7 — and it returns the query
timestamp itself (untruncated) as the calendar key. -/
theorem C4_amended_miss_inserts_derived_row
    (db : DB) (t : Timestamp)
    (hmiss : db.calendar.find? (calMatch t) = none) :
    (get_or_create_datetime_id db t).1 = t ∧
    (get_or_create_datetime_id db t).2.calendar =
      db.calendar ++ [newCalRow t] ∧
    (newCalRow t).quarter = (t.month - 1) / 3 + 1 ∧
    (newCalRow t).week_of_year = isoWeek t.year t.month t.day ∧
    (newCalRow t).day_of_week = weekday t.year t.month t.day + 1 ∧
    1 ≤ (newCalRow t).day_of_week ∧ (newCalRow t).day_of_week ≤ 7 ∧
    ((newCalRow t).is_weekend = true ↔
      (newCalRow t).day_of_week = 6 ∨ (newCalRow t).day_of_week = 7) := by
  have hwd := weekday_lt_7 t.year t.month t.day
  refine ⟨?_, ?_, rfl, rfl, rfl, by simp [newCalRow], by simp [newCalRow]; omega, ?_⟩
  · unfold get_or_create_datetime_id
    rw [hmiss]
  · unfold get_or_create_datetime_id
    rw [hmiss]
  · simp only [newCalRow, decide_eq_true_eq]
    omega

/-- Witness for the amended C4 at the timestamp 2024-01-01 00:00:30 on a
fresh database. -/
theorem C4_amended_witness :
    (get_or_create_datetime_id emptyDB ⟨2024, 1, 1, 0, 0, 30⟩).1 =
      ⟨2024, 1, 1, 0, 0, 30⟩ ∧
    (get_or_create_datetime_id emptyDB ⟨2024, 1, 1, 0, 0, 30⟩).2.calendar =
      emptyDB.calendar ++ [newCalRow ⟨2024, 1, 1, 0, 0, 30⟩] ∧
    (newCalRow ⟨2024, 1, 1, 0, 0, 30⟩).quarter = (1 - 1) / 3 + 1 ∧
    (newCalRow ⟨2024, 1, 1, 0, 0, 30⟩).week_of_year = isoWeek 2024 1 1 ∧
    (newCalRow ⟨2024, 1, 1, 0, 0, 30⟩).day_of_week = weekday 2024 1 1 + 1 ∧
    1 ≤ (newCalRow ⟨2024, 1, 1, 0, 0, 30⟩).day_of_week ∧
    (newCalRow ⟨2024, 1, 1, 0, 0, 30⟩).day_of_week ≤ 7 ∧
    ((newCalRow ⟨2024, 1, 1, 0, 0, 30⟩).is_weekend = true ↔
      (newCalRow ⟨2024, 1, 1, 0, 0, 30⟩).day_of_week = 6 ∨
        (newCalRow ⟨2024, 1, 1, 0, 0, 30⟩).day_of_week = 7) :=
  C4_amended_miss_inserts_derived_row emptyDB ⟨2024, 1, 1, 0, 0, 30⟩ rfl

/-- C5: resolving two timestamps of the same calendar minute in sequence
returns the same calendar key, and resolving two timestamps of different
calendar minutes returns different keys (starting from a consistent
`d_calendar`). -/
theorem C5_calendar_key_per_minute
    (db : DB) (t1 t2 : Timestamp) (hinv : CalInv db) :
    (sameMinute t1 t2 →
      (get_or_create_datetime_id db t1).1 =
        (get_or_create_datetime_id (get_or_create_datetime_id db t1).2 t2).1) ∧
    (¬sameMinute t1 t2 →
      (get_or_create_datetime_id db t1).1 ≠
        (get_or_create_datetime_id (get_or_create_datetime_id db t1).2 t2).1) := by
  constructor
  · intro hsm
    have hpred := calMatch_eq_of_sameMinute hsm
    cases hf : db.calendar.find? (calMatch t1) with
    | some r =>
        have e1 : get_or_create_datetime_id db t1 = (r.datetime_id, db) := by
          unfold get_or_create_datetime_id
          rw [hf]
        rw [e1]
        unfold get_or_create_datetime_id
        rw [← hpred, hf]
    | none =>
        have e1 : get_or_create_datetime_id db t1 =
            (t1, { db with calendar := db.calendar ++ [newCalRow t1] }) := by
          unfold get_or_create_datetime_id
          rw [hf]
        rw [e1]
        unfold get_or_create_datetime_id
        simp only [List.find?_append, ← hpred, hf, Option.none_or]
        rw [List.find?_cons_of_pos _ (calMatch_newCalRow_self t1)]
        rfl
  · intro hne heq
    have h1 : sameMinute (get_or_create_datetime_id db t1).1 t1 :=
      get_or_create_datetime_id_fst_sameMinute hinv
    have h2 : sameMinute
        (get_or_create_datetime_id (get_or_create_datetime_id db t1).2 t2).1 t2 :=
      get_or_create_datetime_id_fst_sameMinute
        (CalInv_get_or_create_datetime_id hinv)
    rw [heq] at h1
    obtain ⟨a1, a2, a3, a4, a5⟩ := h1
    obtain ⟨b1, b2, b3, b4, b5⟩ := h2
    exact hne ⟨by rw [← a1, b1], by rw [← a2, b2], by rw [← a3, b3],
      by rw [← a4, b4], by rw [← a5, b5]⟩

/-- Witness for C5: on a fresh database, 2024-01-01 00:00:10 and
2024-01-01 00:00:50 share a minute, so they resolve to the same key. -/
theorem C5_witness :
    (sameMinute ⟨2024, 1, 1, 0, 0, 10⟩ ⟨2024, 1, 1, 0, 0, 50⟩ →
      (get_or_create_datetime_id emptyDB ⟨2024, 1, 1, 0, 0, 10⟩).1 =
        (get_or_create_datetime_id
          (get_or_create_datetime_id emptyDB ⟨2024, 1, 1, 0, 0, 10⟩).2
          ⟨2024, 1, 1, 0, 0, 50⟩).1) ∧
    (¬sameMinute ⟨2024, 1, 1, 0, 0, 10⟩ ⟨2024, 1, 1, 0, 0, 50⟩ →
      (get_or_create_datetime_id emptyDB ⟨2024, 1, 1, 0, 0, 10⟩).1 ≠
        (get_or_create_datetime_id
          (get_or_create_datetime_id emptyDB ⟨2024, 1, 1, 0, 0, 10⟩).2
          ⟨2024, 1, 1, 0, 0, 50⟩).1) :=
  C5_calendar_key_per_minute emptyDB ⟨2024, 1, 1, 0, 0, 10⟩
    ⟨2024, 1, 1, 0, 0, 50⟩ (by intro r hr; simp [emptyDB] at hr)

/-- A list of strings without duplicates holding `a` counts `a` exactly
once. -/
theorem count_eq_one_of_nodup_mem {a : String} :
    ∀ {l : List String}, l.Nodup → a ∈ l → l.count a = 1 := by
  intro l
  induction l with
  | nil => intro _ h; simp at h
  | cons b l ih =>
      intro hnd hmem
      rw [List.nodup_cons] at hnd
      by_cases hab : b = a
      · subst hab
        rw [List.count_cons_self, List.count_eq_zero.mpr hnd.1]
      · rcases List.mem_cons.mp hmem with h | h
        · exact absurd h.symm hab
        · rw [List.count_cons_of_ne (by simpa using fun h' => hab h'.symm) ]
          exact ih hnd.2 h

/-- C6: resolving the same ship identifier twice returns the same key from
both calls, and afterwards `d_ship` holds exactly one row for that
identifier (starting from a `d_ship` satisfying its primary-key
constraint). -/
theorem C6_ship_resolution_idempotent
    (db : DB) (sid : String) (hnd : db.ships.Nodup) :
    (get_or_create_ship_id db sid).1 =
      (get_or_create_ship_id (get_or_create_ship_id db sid).2 sid).1 ∧
    (get_or_create_ship_id (get_or_create_ship_id db sid).2 sid).2.ships.count
      sid = 1 := by
  have hfst : ∀ d : DB, (get_or_create_ship_id d sid).1 = sid := by
    intro d
    unfold get_or_create_ship_id
    split <;> rfl
  refine ⟨by rw [hfst, hfst], ?_⟩
  by_cases hmem : sid ∈ db.ships
  · have e1 : get_or_create_ship_id db sid = (sid, db) := by
      unfold get_or_create_ship_id
      rw [if_pos hmem]
    rw [e1, e1]
    exact count_eq_one_of_nodup_mem hnd hmem
  · have e1 : get_or_create_ship_id db sid =
        (sid, { db with ships := db.ships ++ [sid] }) := by
      unfold get_or_create_ship_id
      rw [if_neg hmem]
    have hmem2 : sid ∈ db.ships ++ [sid] := List.mem_append_right _ (by simp)
    have e2 : get_or_create_ship_id { db with ships := db.ships ++ [sid] } sid =
        (sid, { db with ships := db.ships ++ [sid] }) := by
      unfold get_or_create_ship_id
      rw [if_pos hmem2]
    rw [e1, e2]
    simp only [List.count_append]
    rw [List.count_eq_zero.mpr hmem, List.count_singleton]
    simp

/-- Witness for C6 on a fresh database and the ship identifier `SHIP42`. -/
theorem C6_witness :
    (get_or_create_ship_id emptyDB "SHIP42").1 =
      (get_or_create_ship_id (get_or_create_ship_id emptyDB "SHIP42").2
        "SHIP42").1 ∧
    (get_or_create_ship_id (get_or_create_ship_id emptyDB "SHIP42").2
      "SHIP42").2.ships.count "SHIP42" = 1 :=
  C6_ship_resolution_idempotent emptyDB "SHIP42" List.nodup_nil

/-! ### The bulk loader -/

/-- A `ProcessedRecord` as assembled by `process_xlsx_file`: ship
identifier, original timestamp string, creation timestamp, the sensor
fields under their canonical names (the `processed_row` dictionary minus
its bookkeeping keys), and the data-source label. -/
structure ProcessedRow where
  id_ship : String
  datetime : String
  datetime_created : Option String
  sensors : List (String × Option ℚ)
  data_source : String
deriving DecidableEq, Repr

/-- A processed record as seen by `prepare_bulk_data`: the row together
with the embedded outcome of `pd.to_datetime(row.datetime)` (`none` for
NaT or a parse failure, both of which skip the record). -/
structure BatchRec where
  row : ProcessedRow
  parsedDatetime : Option Timestamp
deriving DecidableEq, Repr

/-- `prepare_bulk_data`: per record, skip on missing/invalid timestamp,
resolve the ship and calendar dimension keys (mutating the dimension
tables), and emit the bulk tuple for the fact insert. -/
def prepare_bulk_data (db : DB) : List BatchRec → List FactRow × DB
  | [] => ([], db)
  | r :: rest =>
      match r.parsedDatetime with
      | none => prepare_bulk_data db rest
      | some ts =>
          let res1 := get_or_create_ship_id db r.row.id_ship
          let res2 := get_or_create_datetime_id res1.2 ts
          let res3 := prepare_bulk_data res2.2 rest
          (⟨res1.1, res2.1, r.row.sensors, r.row.data_source,
              r.row.datetime⟩ :: res3.1, res3.2)

/-- The `ON CONFLICT (ship_id, datetime_id)` collision test against the
current contents of `f_data`. -/
def factConflict (facts : List FactRow) (b : FactRow) : Bool :=
  facts.any (fun f => f.ship_id == b.ship_id && f.datetime_id == b.datetime_id)

/-- Row-at-a-time semantics of the single bulk
`INSERT ... ON CONFLICT (ship_id, datetime_id) DO NOTHING`: each tuple is
checked against everything already in the table, including tuples
inserted earlier in the same statement. -/
def insertFacts (facts : List FactRow) : List FactRow → List FactRow
  | [] => facts
  | b :: rest =>
      if factConflict facts b then insertFacts facts rest
      else insertFacts (facts ++ [b]) rest

/-- Split a list into chunks of size `n + 1`, as the
`range(0, len(processed_df), batch_size)` loop does. -/
def chunkList {α : Type} (n : ℕ) : List α → List (List α)
  | [] => []
  | x :: xs => ((x :: xs).take (n + 1)) :: chunkList n ((x :: xs).drop (n + 1))
termination_by l => l.length
decreasing_by simp [List.length_drop]; omega

/-- One iteration of the batch loop of `load_data_to_postgres_bulk`:
prepare the batch, skip it if no record survived preparation, otherwise
bulk-insert with conflict skipping, add `len(bulk_data)` to
`records_loaded`, and commit. -/
def loadBatch (acc : ℕ × DB) (batch : List BatchRec) : ℕ × DB :=
  let res := prepare_bulk_data acc.2 batch
  if res.1 = [] then (acc.1, res.2)
  else (acc.1 + res.1.length, { res.2 with facts := insertFacts res.2.facts res.1 })

/-- `load_data_to_postgres_bulk` on its no-failure path: process the
records in batches of 1000 (an empty input yields no batches and returns
0, as the early-exit in the source does). -/
def load_data_to_postgres_bulk (db : DB) (recs : List BatchRec) : ℕ × DB :=
  (chunkList 999 recs).foldl loadBatch (0, db)

/-- The `(ship_id, datetime_id)` key of `b` is already present in
`facts`. -/
def FactKeyMem (facts : List FactRow) (b : FactRow) : Prop :=
  ∃ f ∈ facts, f.ship_id = b.ship_id ∧ f.datetime_id = b.datetime_id

/-- The `UNIQUE (ship_id, datetime_id)` constraint of `f_data`: no two
rows share the composite key. -/
def FactInv (facts : List FactRow) : Prop :=
  facts.Pairwise (fun f g => ¬(f.ship_id = g.ship_id ∧ f.datetime_id = g.datetime_id))

/-- The calendar lookup for `t` already resolves to key `k`. -/
def Resolved (cal : List CalRow) (t : Timestamp) (k : Timestamp) : Prop :=
  ∃ r, cal.find? (calMatch t) = some r ∧ r.datetime_id = k

/-! ### Resolver post- and stability conditions -/

theorem get_or_create_ship_id_fst (db : DB) (s : String) :
    (get_or_create_ship_id db s).1 = s := by
  unfold get_or_create_ship_id
  split <;> rfl

theorem get_or_create_ship_id_calendar (db : DB) (s : String) :
    (get_or_create_ship_id db s).2.calendar = db.calendar := by
  unfold get_or_create_ship_id
  split <;> rfl

theorem get_or_create_ship_id_facts (db : DB) (s : String) :
    (get_or_create_ship_id db s).2.facts = db.facts := by
  unfold get_or_create_ship_id
  split <;> rfl

theorem get_or_create_ship_id_ships_ext (db : DB) (s : String) :
    ∃ e, (get_or_create_ship_id db s).2.ships = db.ships ++ e := by
  unfold get_or_create_ship_id
  split
  · exact ⟨[], by simp⟩
  · exact ⟨[s], rfl⟩

theorem mem_ships_get_or_create_ship_id (db : DB) (s : String) :
    s ∈ (get_or_create_ship_id db s).2.ships := by
  unfold get_or_create_ship_id
  split
  · assumption
  · simp

theorem get_or_create_ship_id_of_mem {db : DB} {s : String}
    (h : s ∈ db.ships) : get_or_create_ship_id db s = (s, db) := by
  unfold get_or_create_ship_id
  rw [if_pos h]

theorem get_or_create_datetime_id_ships (db : DB) (t : Timestamp) :
    (get_or_create_datetime_id db t).2.ships = db.ships := by
  unfold get_or_create_datetime_id
  cases db.calendar.find? (calMatch t) <;> rfl

theorem get_or_create_datetime_id_facts (db : DB) (t : Timestamp) :
    (get_or_create_datetime_id db t).2.facts = db.facts := by
  unfold get_or_create_datetime_id
  cases db.calendar.find? (calMatch t) <;> rfl

theorem get_or_create_datetime_id_cal_ext (db : DB) (t : Timestamp) :
    ∃ e, (get_or_create_datetime_id db t).2.calendar = db.calendar ++ e := by
  unfold get_or_create_datetime_id
  cases db.calendar.find? (calMatch t) with
  | none => exact ⟨[newCalRow t], rfl⟩
  | some r => exact ⟨[], by simp⟩

theorem Resolved.mono_cal {cal : List CalRow} {t k : Timestamp}
    (h : Resolved cal t k) (e : List CalRow) : Resolved (cal ++ e) t k := by
  obtain ⟨r, hr, hk⟩ := h
  exact ⟨r, by rw [List.find?_append, hr]; rfl, hk⟩

/-- After resolving `t`, the calendar resolves `t` to the returned key. -/
theorem resolved_get_or_create_datetime_id (db : DB) (t : Timestamp) :
    Resolved (get_or_create_datetime_id db t).2.calendar t
      (get_or_create_datetime_id db t).1 := by
  unfold get_or_create_datetime_id
  cases hf : db.calendar.find? (calMatch t) with
  | some r => exact ⟨r, hf, rfl⟩
  | none =>
      refine ⟨newCalRow t, ?_, rfl⟩
      simp only [List.find?_append, hf, Option.none_or]
      exact List.find?_cons_of_pos _ (calMatch_newCalRow_self t)

/-- If the calendar already resolves `t` to `k`, resolving `t` is a
no-op returning `k`. -/
theorem get_or_create_datetime_id_of_resolved {db : DB} {t k : Timestamp}
    (h : Resolved db.calendar t k) :
    get_or_create_datetime_id db t = (k, db) := by
  obtain ⟨r, hr, hk⟩ := h
  unfold get_or_create_datetime_id
  rw [hr]
  simpa using hk

/-! ### Batch preparation: post- and stability conditions -/

theorem prepare_bulk_data_facts :
    ∀ (recs : List BatchRec) (db : DB),
      (prepare_bulk_data db recs).2.facts = db.facts := by
  intro recs
  induction recs with
  | nil => intro db; rfl
  | cons r rest ih =>
      intro db
      unfold prepare_bulk_data
      cases r.parsedDatetime with
      | none => exact ih db
      | some ts =>
          simp only
          rw [ih, get_or_create_datetime_id_facts, get_or_create_ship_id_facts]

theorem prepare_bulk_data_ships_ext :
    ∀ (recs : List BatchRec) (db : DB),
      ∃ e, (prepare_bulk_data db recs).2.ships = db.ships ++ e := by
  intro recs
  induction recs with
  | nil => intro db; exact ⟨[], by simp [prepare_bulk_data]⟩
  | cons r rest ih =>
      intro db
      unfold prepare_bulk_data
      cases r.parsedDatetime with
      | none => exact ih db
      | some ts =>
          simp only
          obtain ⟨e1, he1⟩ := get_or_create_ship_id_ships_ext db r.row.id_ship
          obtain ⟨e3, he3⟩ := ih (get_or_create_datetime_id
            (get_or_create_ship_id db r.row.id_ship).2 ts).2
          refine ⟨e1 ++ e3, ?_⟩
          rw [he3, get_or_create_datetime_id_ships, he1, List.append_assoc]

theorem prepare_bulk_data_cal_ext :
    ∀ (recs : List BatchRec) (db : DB),
      ∃ e, (prepare_bulk_data db recs).2.calendar = db.calendar ++ e := by
  intro recs
  induction recs with
  | nil => intro db; exact ⟨[], by simp [prepare_bulk_data]⟩
  | cons r rest ih =>
      intro db
      unfold prepare_bulk_data
      cases r.parsedDatetime with
      | none => exact ih db
      | some ts =>
          simp only
          obtain ⟨e2, he2⟩ := get_or_create_datetime_id_cal_ext
            (get_or_create_ship_id db r.row.id_ship).2 ts
          obtain ⟨e3, he3⟩ := ih (get_or_create_datetime_id
            (get_or_create_ship_id db r.row.id_ship).2 ts).2
          refine ⟨e2 ++ e3, ?_⟩
          rw [he3, he2, get_or_create_ship_id_calendar, List.append_assoc]

/-- Stability of batch preparation: once a batch has been prepared
(final state `db'`), preparing it again from any state whose ship
dimension contains `db'`'s ships and whose calendar extends `db'`'s
produces the same bulk tuples and leaves the state untouched. -/
theorem prepare_bulk_data_stable :
    ∀ (recs : List BatchRec) (db : DB) (bulk : List FactRow) (db' dbX : DB),
      prepare_bulk_data db recs = (bulk, db') →
      (∀ s ∈ db'.ships, s ∈ dbX.ships) →
      (∃ e, dbX.calendar = db'.calendar ++ e) →
      prepare_bulk_data dbX recs = (bulk, dbX) := by
  intro recs
  induction recs with
  | nil =>
      intro db bulk db' dbX heq _ _
      unfold prepare_bulk_data at heq ⊢
      injection heq with h1 h2
      rw [← h1]
  | cons r rest ih =>
      intro db bulk db' dbX heq hships hcal
      cases hpd : r.parsedDatetime with
      | none =>
          unfold prepare_bulk_data at heq ⊢
          rw [hpd] at heq ⊢
          exact ih db bulk db' dbX heq hships hcal
      | some ts =>
          unfold prepare_bulk_data at heq ⊢
          rw [hpd] at heq ⊢
          simp only at heq ⊢
          injection heq with hbulk hdb'
          set db1 := (get_or_create_ship_id db r.row.id_ship).2 with hdb1
          set k := (get_or_create_datetime_id db1 ts).1 with hk
          set db2 := (get_or_create_datetime_id db1 ts).2 with hdb2
          have hsid : (get_or_create_ship_id db r.row.id_ship).1 = r.row.id_ship :=
            get_or_create_ship_id_fst db r.row.id_ship
          have hmem1 : r.row.id_ship ∈ db1.ships :=
            mem_ships_get_or_create_ship_id db r.row.id_ship
          have hmem2 : r.row.id_ship ∈ db2.ships := by
            rw [hdb2, get_or_create_datetime_id_ships]
            exact hmem1
          have hmem3 : r.row.id_ship ∈ db'.ships := by
            obtain ⟨e, he⟩ := prepare_bulk_data_ships_ext rest db2
            rw [← hdb', he]
            exact List.mem_append_left _ hmem2
          have hmemX : r.row.id_ship ∈ dbX.ships := hships _ hmem3
          have hres2 : Resolved db2.calendar ts k :=
            resolved_get_or_create_datetime_id db1 ts
          have hresX : Resolved dbX.calendar ts k := by
            obtain ⟨e, he⟩ := prepare_bulk_data_cal_ext rest db2
            obtain ⟨e', he'⟩ := hcal
            have hX : dbX.calendar = db2.calendar ++ (e ++ e') := by
              rw [he', ← hdb', he, List.append_assoc]
            rw [hX]
            exact hres2.mono_cal _
          have htail := ih db2 (prepare_bulk_data db2 rest).1 db' dbX
            (by rw [← hdb']) hships hcal
          rw [get_or_create_ship_id_of_mem hmemX]
          simp only
          rw [get_or_create_datetime_id_of_resolved hresX]
          simp only
          rw [htail, ← hbulk, hsid]

/-! ### Conflict-skipping insert: basic properties -/

theorem factConflict_iff (facts : List FactRow) (b : FactRow) :
    factConflict facts b = true ↔ FactKeyMem facts b := by
  simp [factConflict, FactKeyMem, List.any_eq_true]

theorem FactKeyMem.mono_facts {facts : List FactRow} {b : FactRow}
    (h : FactKeyMem facts b) (e : List FactRow) :
    FactKeyMem (facts ++ e) b := by
  obtain ⟨f, hf, hk⟩ := h
  exact ⟨f, List.mem_append_left _ hf, hk⟩

theorem insertFacts_prefix :
    ∀ (bulk facts : List FactRow), ∃ e, insertFacts facts bulk = facts ++ e := by
  intro bulk
  induction bulk with
  | nil => intro facts; exact ⟨[], by simp [insertFacts]⟩
  | cons b rest ih =>
      intro facts
      unfold insertFacts
      split
      · exact ih facts
      · obtain ⟨e, he⟩ := ih (facts ++ [b])
        exact ⟨[b] ++ e, by rw [he, List.append_assoc]⟩

theorem insertFacts_key_mem :
    ∀ (bulk facts : List FactRow) (b : FactRow), b ∈ bulk →
      FactKeyMem (insertFacts facts bulk) b := by
  intro bulk
  induction bulk with
  | nil => intro facts b h; simp at h
  | cons b0 rest ih =>
      intro facts b hb
      unfold insertFacts
      rcases List.mem_cons.mp hb with hb | hb
      · subst hb
        split
        · rename_i hc
          obtain ⟨e, he⟩ := insertFacts_prefix rest facts
          rw [he]
          exact ((factConflict_iff facts b).mp hc).mono_facts e
        · obtain ⟨e, he⟩ := insertFacts_prefix rest (facts ++ [b])
          rw [he]
          exact ⟨b, List.mem_append_left _ (List.mem_append_right _ (by simp)),
            rfl, rfl⟩
      · split
        · exact ih facts b hb
        · exact ih (facts ++ [b0]) b hb

theorem insertFacts_of_all_mem :
    ∀ (bulk facts : List FactRow),
      (∀ b ∈ bulk, FactKeyMem facts b) → insertFacts facts bulk = facts := by
  intro bulk
  induction bulk with
  | nil => intro facts _; rfl
  | cons b rest ih =>
      intro facts hall
      unfold insertFacts
      rw [if_pos ((factConflict_iff facts b).mpr (hall b (by simp)))]
      exact ih facts (fun x hx => hall x (List.mem_cons_of_mem _ hx))

theorem insertFacts_inv :
    ∀ (bulk facts : List FactRow), FactInv facts →
      FactInv (insertFacts facts bulk) := by
  intro bulk
  induction bulk with
  | nil => intro facts h; exact h
  | cons b rest ih =>
      intro facts hinv
      unfold insertFacts
      split
      · exact ih facts hinv
      · rename_i hc
        refine ih (facts ++ [b]) ?_
        rw [FactInv, List.pairwise_append]
        refine ⟨hinv, by simp, ?_⟩
        intro f hf b' hb'
        simp only [List.mem_singleton] at hb'
        intro hkey
        rw [hb'] at hkey
        have hnc : ¬FactKeyMem facts b := fun hm =>
          hc ((factConflict_iff facts b).mpr hm)
        exact hnc ⟨f, hf, hkey.1, hkey.2⟩

/-! ### Batch loading: idempotence -/

/-- A batch is "ready" in state `db`: preparing it is a no-op on the
state, and every bulk tuple it yields has its `(ship_id, datetime_id)`
key already in `f_data`. -/
def Ready (db : DB) (batch : List BatchRec) : Prop :=
  ∃ bulk, prepare_bulk_data db batch = (bulk, db) ∧
    ∀ b ∈ bulk, FactKeyMem db.facts b

theorem Ready.stable {db dbX : DB} {batch : List BatchRec}
    (h : Ready db batch)
    (hships : ∀ s ∈ db.ships, s ∈ dbX.ships)
    (hcal : ∃ e, dbX.calendar = db.calendar ++ e)
    (hfacts : ∃ e, dbX.facts = db.facts ++ e) :
    Ready dbX batch := by
  obtain ⟨bulk, hprep, hmem⟩ := h
  refine ⟨bulk,
    prepare_bulk_data_stable batch db bulk db dbX hprep hships hcal, ?_⟩
  intro b hb
  obtain ⟨e, he⟩ := hfacts
  rw [he]
  exact (hmem b hb).mono_facts e

/-- After one batch iteration the three tables have only grown, the
fact-key uniqueness constraint is preserved, and the batch is ready (a
re-run would be a no-op). -/
theorem loadBatch_post (n : ℕ) (db : DB) (c : List BatchRec) :
    (∃ e, (loadBatch (n, db) c).2.ships = db.ships ++ e) ∧
    (∃ e, (loadBatch (n, db) c).2.calendar = db.calendar ++ e) ∧
    (∃ e, (loadBatch (n, db) c).2.facts = db.facts ++ e) ∧
    (FactInv db.facts → FactInv (loadBatch (n, db) c).2.facts) ∧
    Ready (loadBatch (n, db) c).2 c := by
  have hPfacts : (prepare_bulk_data db c).2.facts = db.facts :=
    prepare_bulk_data_facts c db
  unfold loadBatch
  simp only
  split
  · rename_i hb
    have hpp : prepare_bulk_data db c = ([], (prepare_bulk_data db c).2) := by
      rw [← hb]
    refine ⟨prepare_bulk_data_ships_ext c db, prepare_bulk_data_cal_ext c db,
      ⟨[], by rw [hPfacts]; simp⟩, fun h => by rw [hPfacts]; exact h, ?_⟩
    refine ⟨[], ?_, by simp⟩
    exact prepare_bulk_data_stable c db [] (prepare_bulk_data db c).2
      (prepare_bulk_data db c).2 hpp (fun s hs => hs) ⟨[], by simp⟩
  · rename_i hb
    have hpp : prepare_bulk_data db c =
        ((prepare_bulk_data db c).1, (prepare_bulk_data db c).2) := rfl
    obtain ⟨e, he⟩ :=
      insertFacts_prefix (prepare_bulk_data db c).1 (prepare_bulk_data db c).2.facts
    refine ⟨prepare_bulk_data_ships_ext c db, prepare_bulk_data_cal_ext c db,
      ⟨e, by rw [he, hPfacts]⟩,
      fun h => insertFacts_inv _ _ (by rw [hPfacts]; exact h), ?_⟩
    refine ⟨(prepare_bulk_data db c).1, ?_, ?_⟩
    · exact prepare_bulk_data_stable c db (prepare_bulk_data db c).1
        (prepare_bulk_data db c).2 _ hpp (fun s hs => hs) ⟨[], by simp⟩
    · intro b hbmem
      exact insertFacts_key_mem (prepare_bulk_data db c).1
        (prepare_bulk_data db c).2.facts b hbmem

/-- After a full load, the tables have only grown, the fact-key
uniqueness constraint is preserved, and every processed batch is
ready. -/
theorem load_fold_post :
    ∀ (cs : List (List BatchRec)) (n : ℕ) (db : DB),
      (∃ e, (cs.foldl loadBatch (n, db)).2.ships = db.ships ++ e) ∧
      (∃ e, (cs.foldl loadBatch (n, db)).2.calendar = db.calendar ++ e) ∧
      (∃ e, (cs.foldl loadBatch (n, db)).2.facts = db.facts ++ e) ∧
      (FactInv db.facts → FactInv (cs.foldl loadBatch (n, db)).2.facts) ∧
      (∀ c ∈ cs, Ready (cs.foldl loadBatch (n, db)).2 c) := by
  intro cs
  induction cs with
  | nil =>
      intro n db
      exact ⟨⟨[], by simp⟩, ⟨[], by simp⟩, ⟨[], by simp⟩, fun h => h, by simp⟩
  | cons c rest ih =>
      intro n db
      simp only [List.foldl_cons]
      obtain ⟨hs1, hc1, hf1, hi1, hr1⟩ := loadBatch_post n db c
      have ihx := ih (loadBatch (n, db) c).1 (loadBatch (n, db) c).2
      rw [Prod.mk.eta] at ihx
      obtain ⟨⟨s2, hs2⟩, ⟨c2, hc2⟩, ⟨f2, hf2⟩, hi2, hr2⟩ := ihx
      obtain ⟨s1, hs1⟩ := hs1
      obtain ⟨c1, hc1⟩ := hc1
      obtain ⟨f1, hf1⟩ := hf1
      refine ⟨⟨s1 ++ s2, by rw [hs2, hs1, List.append_assoc]⟩,
        ⟨c1 ++ c2, by rw [hc2, hc1, List.append_assoc]⟩,
        ⟨f1 ++ f2, by rw [hf2, hf1, List.append_assoc]⟩,
        fun h => hi2 (hi1 h), ?_⟩
      intro c' hc'
      rcases List.mem_cons.mp hc' with hc' | hc'
      · subst hc'
        exact hr1.stable
          (fun s hs => by rw [hs2]; exact List.mem_append_left _ hs)
          ⟨c2, hc2⟩ ⟨f2, hf2⟩
      · exact hr2 c' hc'

/-- Re-running a load whose batches are all ready leaves the state
untouched. -/
theorem load_fold_noop :
    ∀ (cs : List (List BatchRec)) (n : ℕ) (db : DB),
      (∀ c ∈ cs, Ready db c) →
      (cs.foldl loadBatch (n, db)).2 = db := by
  intro cs
  induction cs with
  | nil => intro n db _; rfl
  | cons c rest ih =>
      intro n db hall
      simp only [List.foldl_cons]
      obtain ⟨bulk, hprep, hmem⟩ := hall c (by simp)
      have hlb : ∃ m, loadBatch (n, db) c = (m, db) := by
        unfold loadBatch
        simp only [hprep]
        split
        · exact ⟨n, rfl⟩
        · refine ⟨n + bulk.length, ?_⟩
          rw [insertFacts_of_all_mem bulk db.facts hmem]
      obtain ⟨m, hm⟩ := hlb
      rw [hm]
      exact ih m db (fun c' hc' => hall c' (List.mem_cons_of_mem _ hc'))

/-- C3: loading the same batch of processed records twice leaves `f_data`
unchanged after the second load (the repeated load is a no-op on the fact
table), at most one fact row exists per `(ship_id, datetime_id)` pair
(given the `UNIQUE` constraint held initially), and the rows present
before the load are still there afterwards (conflicting re-inserts are
skipped, so the first inserted row is kept). -/
theorem C3_repeated_bulk_load_noop
    (db : DB) (recs : List BatchRec) (hinv : FactInv db.facts) :
    (load_data_to_postgres_bulk
        (load_data_to_postgres_bulk db recs).2 recs).2.facts =
      (load_data_to_postgres_bulk db recs).2.facts ∧
    FactInv (load_data_to_postgres_bulk db recs).2.facts ∧
    (∃ newRows, (load_data_to_postgres_bulk db recs).2.facts =
      db.facts ++ newRows) := by
  unfold load_data_to_postgres_bulk
  obtain ⟨hs, hc, hf, hi, hr⟩ := load_fold_post (chunkList 999 recs) 0 db
  have hnoop := load_fold_noop (chunkList 999 recs) 0
    ((chunkList 999 recs).foldl loadBatch (0, db)).2 hr
  exact ⟨by rw [hnoop], hi hinv, hf⟩

/-- Witness for C3: one record for ship `S1` at 2024-01-01 00:00:00,
loaded twice into a fresh database. -/
theorem C3_witness :
    (load_data_to_postgres_bulk
        (load_data_to_postgres_bulk emptyDB
          [⟨⟨"S1", "2024-01-01 00:00:00", none, [], "data.xlsx"⟩,
            some ⟨2024, 1, 1, 0, 0, 0⟩⟩]).2
        [⟨⟨"S1", "2024-01-01 00:00:00", none, [], "data.xlsx"⟩,
          some ⟨2024, 1, 1, 0, 0, 0⟩⟩]).2.facts =
      (load_data_to_postgres_bulk emptyDB
        [⟨⟨"S1", "2024-01-01 00:00:00", none, [], "data.xlsx"⟩,
          some ⟨2024, 1, 1, 0, 0, 0⟩⟩]).2.facts ∧
    FactInv (load_data_to_postgres_bulk emptyDB
      [⟨⟨"S1", "2024-01-01 00:00:00", none, [], "data.xlsx"⟩,
        some ⟨2024, 1, 1, 0, 0, 0⟩⟩]).2.facts ∧
    (∃ newRows, (load_data_to_postgres_bulk emptyDB
        [⟨⟨"S1", "2024-01-01 00:00:00", none, [], "data.xlsx"⟩,
          some ⟨2024, 1, 1, 0, 0, 0⟩⟩]).2.facts =
      emptyDB.facts ++ newRows) :=
  C3_repeated_bulk_load_noop emptyDB
    [⟨⟨"S1", "2024-01-01 00:00:00", none, [], "data.xlsx"⟩,
      some ⟨2024, 1, 1, 0, 0, 0⟩⟩] List.Pairwise.nil

/-! ### The record parser -/

/-- The value of the `data` column as seen by `parse_data_column`: a
string (carrying the embedded outcome of `ast.literal_eval` on the
cleaned string — `error` for a malformed literal or decode exception), an
already-parsed dictionary, or a value of unexpected type. -/
inductive DataCol where
  | str (decoded : Except String (List (String × RawValue)))
  | dict (d : List (String × RawValue))
  | other

/-- The body of `parse_data_column` before its exception handlers: decode
(possibly raising), validate, and degrade an empty validated mapping to
the empty dictionary. -/
def parse_data_column_body : DataCol → Except String (List (String × ℚ))
  | .str (.error e) => .error e
  | .str (.ok d) =>
      .ok (if (validate_sensor_data d).1 = [] then [] else (validate_sensor_data d).1)
  | .dict d =>
      .ok (if (validate_sensor_data d).1 = [] then [] else (validate_sensor_data d).1)
  | .other => .ok []

/-- `parse_data_column` with its `except` clauses: every exception of the
body (`json.JSONDecodeError`, `ValueError`, bare `Exception`) is caught,
logged, and turned into the empty mapping. -/
def parse_data_column (c : DataCol) : List (String × ℚ) :=
  match parse_data_column_body c with
  | .error _ => []
  | .ok v => v

/-- C8: a decoding failure raised while parsing the `data` string is
caught inside `parse_data_column`, which returns the empty mapping to its
caller instead of propagating the exception (the guarded function's
return type carries no exception at all). -/
theorem C8_decode_failure_caught (e : String) :
    parse_data_column_body (.str (.error e)) = .error e ∧
    parse_data_column (.str (.error e)) = [] :=
  ⟨rfl, rfl⟩

/-! ### The file processor -/

/-- One cell of a spreadsheet row: the column can be absent from the
sheet, hold a null (`pd.notna` false), or hold a value. -/
inductive Cell (α : Type) where
  | absent
  | nan
  | val (a : α)

/-- The `data` cell's value: its string form `str(row.data)` (used by the
blank-check) together with the embedded `ast.literal_eval` outcome on the
cleaned string. -/
structure DataVal where
  text : String
  decoded : Except String (List (String × RawValue))

/-- One raw row of the `DATA` sheet as iterated by `process_xlsx_file`. -/
structure RawRow where
  id_ship : Cell String
  datetime : Cell String
  data : Cell DataVal
  datetime_created : Cell String

/-- Whether a required column is present in the row
(`validate_input_data`). -/
def cellPresent {α : Type} : Cell α → Bool
  | .absent => false
  | _ => true

/-- Lookup in the validated mapping (`data_dict.get(...)`). -/
def dictGetQ (k : String) : List (String × ℚ) → Option ℚ
  | [] => none
  | (k', v) :: rest => if k' = k then some v else dictGetQ k rest

/-- The canonical-name sensor fields of `processed_row`, built with
`data_dict.get(...)` exactly as in lines 363–392 of the source. -/
def sensorsOf (d : List (String × ℚ)) : List (String × Option ℚ) :=
  [("latitude", dictGetQ "LAT" d),
   ("longitude", dictGetQ "LON" d),
   ("wind_direction", dictGetQ "WINDIR" d),
   ("wind_speed", dictGetQ "WINSPE" d),
   ("air_temperature", dictGetQ "AIR_TEMP_AUT" d),
   ("tank0_liquid_volume", dictGetQ "CTNK0_LIQ_VOL" d),
   ("tank0_max_volume", dictGetQ "CTNK0_MAX_VOL" d),
   ("tank0_percentage", dictGetQ "CTNK0_MAX_PERC" d),
   ("tank1_liquid_volume", dictGetQ "CTNK1_LIQ_VOL" d),
   ("tank1_max_volume", dictGetQ "CTNK1_MAX_VOL" d),
   ("tank1_percentage", dictGetQ "CTNK1_PERC" d),
   ("tank2_liquid_volume", dictGetQ "CTNK2_LIQ_VOL" d),
   ("tank2_max_volume", dictGetQ "CTNK2_MAX_VOL" d),
   ("tank2_percentage", dictGetQ "CTNK2_PERC" d),
   ("tank3_liquid_volume", dictGetQ "CTNK3_LIQ_VOL" d),
   ("tank3_max_volume", dictGetQ "CTNK3_MAX_VOL" d),
   ("tank3_percentage", dictGetQ "CTNK3_PERC" d),
   ("tank4_liquid_volume", dictGetQ "CTNK4_LIQ_VOL" d),
   ("tank4_max_volume", dictGetQ "CTNK4_MAX_VOL" d),
   ("tank4_percentage", dictGetQ "CTNK4_PERC" d),
   ("tank0_vapor_pressure", dictGetQ "CTNK0_VAP_PRES" d),
   ("tank0_vapor_temperature", dictGetQ "CTNK0_VAP_TEMP" d),
   ("tank1_vapor_pressure", dictGetQ "CTNK1_VAP_PRES" d),
   ("tank1_vapor_temperature", dictGetQ "CTNK1_VAP_TEMP" d),
   ("tank2_vapor_pressure", dictGetQ "CTNK2_VAP_PRES" d),
   ("tank2_vapor_temperature", dictGetQ "CTNK2_VAP_TEMP" d),
   ("tank3_vapor_pressure", dictGetQ "CTNK3_VAP_PRES" d),
   ("tank3_vapor_temperature", dictGetQ "CTNK3_VAP_TEMP" d),
   ("tank4_vapor_pressure", dictGetQ "CTNK4_VAP_PRES" d),
   ("tank4_vapor_temperature", dictGetQ "CTNK4_VAP_TEMP" d)]

/-- Outcome of one iteration of the row loop of `process_xlsx_file`: a
materialized `ProcessedRecord`, a skipped row counted as a validation
error, or a skipped row counted as a processing error. -/
inductive RowOutcome where
  | ok (p : ProcessedRow)
  | valErr
  | procErr

/-- The body of the row loop of `process_xlsx_file`: required-column
check, sanitization and blank-check of required values, data parsing, and
materialization of `processed_row`.  Accessing the `datetime_created`
column when it is absent raises a `KeyError`, caught by the per-row
`except` as a processing error. -/
def process_row (fileName : String) (r : RawRow) : RowOutcome :=
  if ¬(cellPresent r.id_ship && cellPresent r.datetime && cellPresent r.data) then
    .valErr
  else
    let ship_id : Option String :=
      match r.id_ship with
      | .val s => some s.trim
      | _ => none
    let datetime_str : Option String :=
      match r.datetime with
      | .val s => some s.trim
      | _ => none
    let data_val : Option DataVal :=
      match r.data with
      | .val v => some v
      | _ => none
    if (ship_id.getD "") = "" ∨ (datetime_str.getD "") = "" ∨
        ((data_val.map DataVal.text).getD "") = "" then
      .valErr
    else
      match ship_id, datetime_str, data_val with
      | some sid, some dts, some dv =>
          let data_dict := parse_data_column (.str dv.decoded)
          if data_dict = [] then .valErr
          else
            match r.datetime_created with
            | .absent => .procErr
            | .nan => .ok ⟨sid, dts, none, sensorsOf data_dict, fileName⟩
            | .val s => .ok ⟨sid, dts, some s.trim, sensorsOf data_dict, fileName⟩
      | _, _, _ => .valErr

/-- The row loop of `process_xlsx_file`: collect the processed rows and
count validation and processing errors. -/
def process_xlsx_file (fileName : String) (rows : List RawRow) :
    List ProcessedRow × ℕ × ℕ :=
  rows.foldl (fun acc r =>
    match process_row fileName r with
    | .ok p => (acc.1 ++ [p], acc.2.1, acc.2.2)
    | .valErr => (acc.1, acc.2.1 + 1, acc.2.2)
    | .procErr => (acc.1, acc.2.1, acc.2.2 + 1)) ([], 0, 0)

theorem process_xlsx_file_foldl_count (fileName : String) :
    ∀ (rows : List RawRow) (acc : List ProcessedRow × ℕ × ℕ),
      (rows.foldl (fun acc r =>
        match process_row fileName r with
        | .ok p => (acc.1 ++ [p], acc.2.1, acc.2.2)
        | .valErr => (acc.1, acc.2.1 + 1, acc.2.2)
        | .procErr => (acc.1, acc.2.1, acc.2.2 + 1)) acc).1.length +
      (rows.foldl (fun acc r =>
        match process_row fileName r with
        | .ok p => (acc.1 ++ [p], acc.2.1, acc.2.2)
        | .valErr => (acc.1, acc.2.1 + 1, acc.2.2)
        | .procErr => (acc.1, acc.2.1, acc.2.2 + 1)) acc).2.1 +
      (rows.foldl (fun acc r =>
        match process_row fileName r with
        | .ok p => (acc.1 ++ [p], acc.2.1, acc.2.2)
        | .valErr => (acc.1, acc.2.1 + 1, acc.2.2)
        | .procErr => (acc.1, acc.2.1, acc.2.2 + 1)) acc).2.2 =
      acc.1.length + acc.2.1 + acc.2.2 + rows.length := by
  intro rows
  induction rows with
  | nil => intro acc; simp
  | cons r rest ih =>
      intro acc
      simp only [List.foldl_cons, List.length_cons]
      rw [ih]
      cases process_row fileName r <;> simp <;> omega

/-- C10: every row of a successfully read file is accounted for exactly
once — the row count equals the number of returned processed records plus
the validation-error count plus the processing-error count. -/
theorem C10_every_row_accounted_once (fileName : String) (rows : List RawRow) :
    (process_xlsx_file fileName rows).1.length +
      (process_xlsx_file fileName rows).2.1 +
      (process_xlsx_file fileName rows).2.2 = rows.length := by
  unfold process_xlsx_file
  rw [process_xlsx_file_foldl_count]
  simp

/-! ### Unrecoverable load errors and the orchestrator

The batch loop of `load_data_to_postgres_bulk` guards only the
`execute_values` call; a failure of the per-batch `conn.commit()` is
outside that guard, so it reaches the function-level handler, which rolls
back the in-flight transaction (the uncommitted fact inserts of the
current batch — the dimension inserts were already committed by
`get_or_create_*`'s own commits) and raises `RuntimeError` carrying the
`records_loaded` counter (already incremented for the in-flight batch).
The model injects such a commit failure at batch index `failAt`. -/

/-- The batch loop with a commit failure injected at batch index
`failAt`; `error` carries `records_loaded` and the rolled-back state. -/
def loadBatchesWithFault (failAt : ℕ) :
    List (List BatchRec) → ℕ → ℕ × DB → Except (ℕ × DB) (ℕ × DB)
  | [], _, acc => .ok acc
  | c :: rest, i, acc =>
      let res := prepare_bulk_data acc.2 c
      if res.1 = [] then
        loadBatchesWithFault failAt rest (i + 1) (acc.1, res.2)
      else if i = failAt then
        .error (acc.1 + res.1.length, res.2)
      else
        loadBatchesWithFault failAt rest (i + 1)
          (acc.1 + res.1.length,
            { res.2 with facts := insertFacts res.2.facts res.1 })

/-- `load_data_to_postgres_bulk` with the injected commit failure. -/
def load_data_with_commit_fault (db : DB) (recs : List BatchRec)
    (failAt : ℕ) : Except (ℕ × DB) (ℕ × DB) :=
  loadBatchesWithFault failAt (chunkList 999 recs) 0 (0, db)

/-- One iteration of the per-file loop of `etl`: the whole
process-and-load body sits in a per-file `try`, whose `except Exception`
logs the error and continues with the next file — including the
`RuntimeError` re-raised by the bulk loader. -/
def etlFileStep (acc : ℕ × DB) (file : List BatchRec × Option ℕ) : ℕ × DB :=
  match file.2 with
  | none =>
      let res := load_data_to_postgres_bulk acc.2 file.1
      (acc.1 + res.1, res.2)
  | some j =>
      match load_data_with_commit_fault acc.2 file.1 j with
      | .ok res => (acc.1 + res.1, res.2)
      | .error (_, dbE) => (acc.1, dbE)

/-- `etl`: only a failure outside the per-file loop (here: file
discovery) escapes to the caller; the per-file loop itself always runs to
completion. -/
def etl (db : DB)
    (discovery : Except String (List (List BatchRec × Option ℕ))) :
    Except String (ℕ × DB) :=
  match discovery with
  | .error e => .error e
  | .ok files => .ok (files.foldl etlFileStep (0, db))

/-- Evaluation equation for `chunkList` on a list that fits in one
batch. -/
theorem chunkList_singleton {α : Type} (n : ℕ) (a : α) :
    chunkList n [a] = [[a]] := by
  rw [chunkList]
  simp [chunkList]

/-- Counterexample to C9: with one file whose load hits an unrecoverable
(commit) failure, the loader raises — but `etl` catches the error in its
per-file handler and completes normally, instead of re-raising and
terminating the run. -/
theorem C9_counterexample :
    (load_data_with_commit_fault emptyDB
        [⟨⟨"S1", "2024-01-01 00:00:00", none, [], "data.xlsx"⟩,
          some ⟨2024, 1, 1, 0, 0, 0⟩⟩] 0).isOk = false ∧
    (etl emptyDB (.ok
        [([⟨⟨"S1", "2024-01-01 00:00:00", none, [], "data.xlsx"⟩,
            some ⟨2024, 1, 1, 0, 0, 0⟩⟩], some 0)])).isOk = true := by
  constructor
  · unfold load_data_with_commit_fault
    rw [chunkList_singleton]
    rfl
  · rfl

/-- Helper for the amended C9: if the batch loop errors out, the carried
state's fact table holds exactly the rows committed by the batches before
the failing one — the in-flight batch's inserts are rolled back. -/
theorem loadBatchesWithFault_error_facts (failAt : ℕ) :
    ∀ (cs : List (List BatchRec)) (i : ℕ) (acc : ℕ × DB) (n : ℕ) (dbE : DB),
      loadBatchesWithFault failAt cs i acc = .error (n, dbE) →
      ∃ pre post, cs = pre ++ post ∧
        dbE.facts = (pre.foldl loadBatch acc).2.facts := by
  intro cs
  induction cs with
  | nil =>
      intro i acc n dbE h
      simp [loadBatchesWithFault] at h
  | cons c rest ih =>
      intro i acc n dbE h
      unfold loadBatchesWithFault at h
      simp only at h
      split at h
      · rename_i hb
        obtain ⟨pre, post, hcs, hfacts⟩ :=
          ih (i + 1) (acc.1, (prepare_bulk_data acc.2 c).2) n dbE h
        refine ⟨c :: pre, post, by rw [List.cons_append, hcs], ?_⟩
        rw [List.foldl_cons]
        have hlb : loadBatch acc c = (acc.1, (prepare_bulk_data acc.2 c).2) := by
          unfold loadBatch
          simp only
          rw [if_pos hb]
        rw [hlb]
        exact hfacts
      · rename_i hb
        split at h
        · injection h with h12
          injection h12 with h1 h2
          refine ⟨[], c :: rest, rfl, ?_⟩
          rw [← h2]
          exact prepare_bulk_data_facts c acc.2
        · rename_i hne
          obtain ⟨pre, post, hcs, hfacts⟩ := ih (i + 1) _ n dbE h
          refine ⟨c :: pre, post, by rw [List.cons_append, hcs], ?_⟩
          rw [List.foldl_cons]
          have hlb : loadBatch acc c =
              (acc.1 + (prepare_bulk_data acc.2 c).1.length,
                { (prepare_bulk_data acc.2 c).2 with
                  facts := insertFacts (prepare_bulk_data acc.2 c).2.facts
                    (prepare_bulk_data acc.2 c).1 }) := by
            unfold loadBatch
            simp only
            rw [if_neg hb]
          rw [hlb]
          exact hfacts

/-- C9 (amended): when the bulk loader hits a failure outside the
per-batch guard it rolls back the in-flight transaction (the error state
holds exactly the fact rows committed by the preceding batches) and
re-raises carrying the `records_loaded` counter — but the orchestrator's
*per-file* handler catches that error and continues with the next file,
so the run completes normally; only failures outside the per-file loop
(file discovery) escape `etl`. -/
theorem C9_amended_rollback_but_run_continues
    (db : DB) (files : List (List BatchRec × Option ℕ)) :
    (etl db (.ok files)).isOk = true ∧
    (∀ e, etl db (.error e) = .error e) ∧
    (∀ (recs : List BatchRec) (j n : ℕ) (dbE : DB),
      load_data_with_commit_fault db recs j = .error (n, dbE) →
      ∃ pre post, chunkList 999 recs = pre ++ post ∧
        dbE.facts = (pre.foldl loadBatch (0, db)).2.facts) := by
  refine ⟨rfl, fun e => rfl, ?_⟩
  intro recs j n dbE h
  exact loadBatchesWithFault_error_facts j (chunkList 999 recs) 0 (0, db) n dbE h

/-- Witness for the amended C9: the commit failure on batch 0 of a
one-record load leaves a fact table equal to that of the empty committed
prefix. -/
theorem C9_amended_witness :
    ∃ pre post, chunkList 999
        [(⟨⟨"S1", "2024-01-01 00:00:00", none, [], "data.xlsx"⟩,
            some ⟨2024, 1, 1, 0, 0, 0⟩⟩ : BatchRec)] = pre ++ post ∧
      (DB.mk ["S1"] [newCalRow ⟨2024, 1, 1, 0, 0, 0⟩] []).facts =
        (pre.foldl loadBatch (0, emptyDB)).2.facts :=
  (C9_amended_rollback_but_run_continues emptyDB []).2.2
    [⟨⟨"S1", "2024-01-01 00:00:00", none, [], "data.xlsx"⟩,
      some ⟨2024, 1, 1, 0, 0, 0⟩⟩]
    0 1 (DB.mk ["S1"] [newCalRow ⟨2024, 1, 1, 0, 0, 0⟩] [])
    (by unfold load_data_with_commit_fault; rw [chunkList_singleton]; rfl)

end VesselDash
